import Mathlib

/-!
Verification of the terminal endless-runner simulation and renderer
(`main.go`).  The Go code is shallowly embedded: `float64` values become
rationals, Go `int` becomes `ℤ`, Go's truncating conversion `int(x)` becomes
`qtrunc`, Go's truncating integer division and remainder become `Int.tdiv`
and `Int.tmod`.  The injected randomness (`rand.Intn(3)`) is modelled by
explicit lane parameters threaded into `update`.
-/

namespace Surfer

/-- Go's `int(x)` conversion for `float64`: truncation toward zero. -/
def qtrunc (q : ℚ) : ℤ := Int.tdiv q.num (q.den : ℤ)

/-- Pool entry for an obstacle: `lane`, depth `z`, and an `active` flag. -/
structure Obstacle where
  lane : ℤ
  z : ℚ
  active : Bool
deriving DecidableEq, Repr

/-- Pool entry for a coin: `lane`, depth `z`, and an `active` flag. -/
structure CoinObj where
  lane : ℤ
  z : ℚ
  active : Bool
deriving DecidableEq, Repr

/-- The single mutable aggregate `game` of the Go source. -/
structure Game where
  width : ℤ
  height : ℤ
  speed : ℚ
  score : ℤ
  coins : ℤ
  runnerLane : ℤ
  targetLane : ℤ
  laneX : ℚ
  obstacles : List Obstacle
  coinPool : List CoinObj
  scrollOff : ℚ
  elapsed : ℚ
  spawnTimer : ℚ
  coinTimer : ℚ
  frame : List ℕ
deriving DecidableEq, Repr

/-- `newGame` from the source: Go zero values for the pools. -/
def newGame (w h : ℤ) : Game :=
  { width := w, height := h, speed := 6, score := 0, coins := 0,
    runnerLane := 1, targetLane := 1, laneX := 1,
    obstacles := List.replicate 20 ⟨0, 0, false⟩,
    coinPool := List.replicate 30 ⟨0, 0, false⟩,
    scrollOff := 0, elapsed := 0, spawnTimer := 0, coinTimer := 0, frame := [] }

/-- The speed recomputed by `update`: `6.0 + elapsed*0.05` capped at `16.0`,
where `elapsed` already includes this tick's `dt`. -/
def newSpeed (g : Game) (dt : ℚ) : ℚ :=
  if 16 < 6 + (g.elapsed + dt) * (1 / 20) then 16 else 6 + (g.elapsed + dt) * (1 / 20)

/-- One step of the obstacle-move loop: move toward the viewer by `dz`,
deactivate when `z < -1`.  Inactive entries are skipped (`continue`). -/
def obsStep (dz : ℚ) (o : Obstacle) : Obstacle :=
  if o.active then
    ⟨o.lane, o.z - dz, if o.z - dz < -1 then false else true⟩
  else o

/-- One step of the coin loop: move by `dz`, deactivate when `z < -1`, then
collect (deactivate, count 1) when `z < 2 ∧ 0 < z ∧ lane = runnerLane`. -/
def coinStep (rl : ℤ) (dz : ℚ) (c : CoinObj) : CoinObj × ℕ :=
  if c.active then
    if c.z - dz < 2 ∧ 0 < c.z - dz ∧ c.lane = rl then
      (⟨c.lane, c.z - dz, false⟩, 1)
    else
      (⟨c.lane, c.z - dz, if c.z - dz < -1 then false else true⟩, 0)
  else (c, 0)

/-- The coin loop of `update`: returns the moved pool together with the
number of coins collected this tick. -/
def moveCoins (rl : ℤ) (dz : ℚ) : List CoinObj → List CoinObj × ℕ
  | [] => ([], 0)
  | c :: cs =>
    ((coinStep rl dz c).1 :: (moveCoins rl dz cs).1,
      (coinStep rl dz c).2 + (moveCoins rl dz cs).2)

/-- `spawnObstacle`: claim the first inactive slot with a fresh obstacle at
`z = spawnZ = 19`; no-op when every slot is active. -/
def spawnSlotObs (lane : ℤ) : List Obstacle → List Obstacle
  | [] => []
  | o :: os => if o.active then o :: spawnSlotObs lane os else ⟨lane, 19, true⟩ :: os

/-- Game-level `spawnObstacle` (lane drawn from the injected randomness). -/
def spawnObstacle (g : Game) (lane : ℤ) : Game :=
  { g with obstacles := spawnSlotObs lane g.obstacles }

/-- One slot claim of `spawnCoin`: first inactive slot receives a coin at
depth `z`. -/
def spawnSlotCoin (lane : ℤ) (z : ℚ) : List CoinObj → List CoinObj
  | [] => []
  | c :: cs => if c.active then c :: spawnSlotCoin lane z cs else ⟨lane, z, true⟩ :: cs

/-- The coin trail of `spawnCoin`: three coins in one lane at depths
`spawnZ + j*1.5` for `j = 0, 1, 2`. -/
def spawnCoinTrail (lane : ℤ) (pool : List CoinObj) : List CoinObj :=
  spawnSlotCoin lane (19 + 2 * (3 / 2))
    (spawnSlotCoin lane (19 + 1 * (3 / 2)) (spawnSlotCoin lane (19 + 0 * (3 / 2)) pool))

/-- Game-level `spawnCoin`. -/
def spawnCoin (g : Game) (lane : ℤ) : Game :=
  { g with coinPool := spawnCoinTrail lane g.coinPool }

/-- Lane danger flag of `autoDodge`: an active obstacle occupies lane `l`
with depth in `(0, dodgeLookahead = 8)`. -/
def dangerLane (g : Game) (l : ℤ) : Bool :=
  g.obstacles.any fun o =>
    o.active && decide (0 < o.z) && decide (o.z < 8) && decide (o.lane = l)

/-- Coin preference of `autoDodge`: lane `l` holds an active coin with
`z < dodgeLookahead`. -/
def laneHasCoin (g : Game) (l : ℤ) : Bool :=
  g.coinPool.any fun c => c.active && decide (c.lane = l) && decide (c.z < 8)

/-- The left-to-right fallback scan of `autoDodge`: first safe lane, but a
safe coin-bearing lane overrides (last such lane wins); `-1` when every
lane is dangerous. -/
def bestLaneFold (g : Game) : ℤ :=
  ([0, 1, 2] : List ℤ).foldl
    (fun best l =>
      if dangerLane g l then best
      else if laneHasCoin g l then l
      else if best = -1 then l else best)
    (-1)

/-- The lane `autoDodge` leaves in `targetLane`. -/
def dodgeTarget (g : Game) : ℤ :=
  if dangerLane g g.targetLane then
    if 0 ≤ bestLaneFold g then bestLaneFold g else g.targetLane
  else g.targetLane

/-- `autoDodge`: the dodge pass only ever writes `targetLane`. -/
def autoDodge (g : Game) : Game :=
  { g with targetLane := dodgeTarget g }

/-- New `laneX` after the smooth lane transition at the end of `update`. -/
def laneXNew (g : Game) (dt : ℚ) : ℚ :=
  if 1 / 20 < (g.targetLane : ℚ) - g.laneX then
    (if (g.targetLane : ℚ) < g.laneX + dt * 8 then (g.targetLane : ℚ) else g.laneX + dt * 8)
  else if (g.targetLane : ℚ) - g.laneX < -(1 / 20) then
    (if g.laneX - dt * 8 < (g.targetLane : ℚ) then (g.targetLane : ℚ) else g.laneX - dt * 8)
  else (g.targetLane : ℚ)

/-- New `runnerLane`: snapped to `targetLane` exactly when `laneX` is within
the `0.05` epsilon of the target. -/
def runnerLaneNew (g : Game) (_dt : ℚ) : ℤ :=
  if 1 / 20 < (g.targetLane : ℚ) - g.laneX then g.runnerLane
  else if (g.targetLane : ℚ) - g.laneX < -(1 / 20) then g.runnerLane
  else g.targetLane

/-- The smooth lane transition step (the tail of `update`). -/
def laneStep (g : Game) (dt : ℚ) : Game :=
  { g with laneX := laneXNew g dt, runnerLane := runnerLaneNew g dt }

/-- `game.update(dt)`, the only mutator (`Advance`).  `obLane` and
`coinLane` stand for the two `rand.Intn(3)` draws consumed on spawn. -/
def update (g : Game) (dt : ℚ) (obLane coinLane : ℤ) : Game :=
  let elapsed := g.elapsed + dt
  let score0 := g.score + qtrunc (g.speed * dt * 10)
  let speed := newSpeed g dt
  let scrollOff := g.scrollOff + speed * dt
  let obstacles0 := g.obstacles.map (obsStep (speed * dt))
  let mc := moveCoins g.runnerLane (speed * dt) g.coinPool
  let coins := g.coins + (mc.2 : ℤ)
  let score := score0 + 50 * (mc.2 : ℤ)
  let spawnTimer0 := g.spawnTimer + dt
  let interval0 := 2 - speed * (3 / 50)
  let interval := if interval0 < 7 / 10 then 7 / 10 else interval0
  let spawnTimer := if interval ≤ spawnTimer0 then spawnTimer0 - interval else spawnTimer0
  let obstacles := if interval ≤ spawnTimer0 then spawnSlotObs obLane obstacles0 else obstacles0
  let coinTimer0 := g.coinTimer + dt
  let coinTimer := if 3 / 5 ≤ coinTimer0 then coinTimer0 - 3 / 5 else coinTimer0
  let coinPool := if 3 / 5 ≤ coinTimer0 then spawnCoinTrail coinLane mc.1 else mc.1
  let g1 : Game :=
    { g with elapsed := elapsed, speed := speed, score := score, coins := coins,
             scrollOff := scrollOff, obstacles := obstacles, coinPool := coinPool,
             spawnTimer := spawnTimer, coinTimer := coinTimer }
  laneStep (autoDodge g1) dt

/-- Advance the simulation through a list of ticks; each entry supplies the
tick's `dt` and the two random lane draws. -/
def traj : Game → List (ℚ × ℤ × ℤ) → List Game
  | g, [] => [g]
  | g, p :: l => g :: traj (update g p.1 p.2.1 p.2.2) l

/-- The speed determined by a total elapsed time (the ramp of `update`). -/
def speedOf (e : ℚ) : ℚ :=
  if 16 < 6 + e * (1 / 20) then 16 else 6 + e * (1 / 20)

/-- Invariant tying the stored `speed` to `elapsed`; established by
`newGame` and preserved by every `update`. -/
def SpeedInv (g : Game) : Prop :=
  g.speed = speedOf g.elapsed ∧ 0 ≤ g.elapsed

/-- Boolean form of the collection condition of the coin loop, evaluated on
the pre-move coin with move distance `dz`. -/
def collectB (rl : ℤ) (dz : ℚ) (c : CoinObj) : Bool :=
  c.active && decide (c.z - dz < 2) && decide (0 < c.z - dz) && decide (c.lane = rl)

/-!  Frame compositor.  A row buffer is a byte list together with an
out-of-bounds flag: every translated buffer write goes through `bufWrite`,
which records an attempted out-of-range index instead of Go's panic. -/

/-- Row buffer: byte data plus a sticky out-of-bounds-write flag. -/
structure Buf where
  data : List ℕ
  oob : Bool
deriving DecidableEq, Repr

/-- Write byte `c` at index `i`; flag `oob` when `i` is outside the buffer. -/
def bufWrite (b : Buf) (i : ℤ) (c : ℕ) : Buf :=
  if 0 ≤ i ∧ i < (b.data.length : ℤ) then ⟨b.data.set i.toNat c, b.oob⟩ else ⟨b.data, true⟩

/-- Read the byte at index `i` (0 when out of range). -/
def bufRead (b : Buf) (i : ℤ) : ℕ :=
  b.data.getD i.toNat 0

/-- A healthy row buffer for viewport width `w`: no out-of-bounds write has
been attempted and the data still has length `w`. -/
def Buf.ok (b : Buf) (w : ℤ) : Prop :=
  b.oob = false ∧ (b.data.length : ℤ) = w

/-- A write guarded by the source's own bounds check against `len(buf)`
(the pattern `if 0 <= i && i < len(buf) { buf[i] = c }`). -/
def writeIfIn (b : Buf) (i : ℤ) (c : ℕ) : Buf :=
  if 0 ≤ i ∧ i < (b.data.length : ℤ) then bufWrite b i c else b

/-- `placeStringBytes`: copy `s` into the buffer starting at `x`, with the
source's per-byte bounds check. -/
def placeStringBytes : Buf → ℤ → List ℕ → Buf
  | b, _, [] => b
  | b, x, c :: s => placeStringBytes (writeIfIn b x c) (x + 1) s

/-- The unconditional write loop `for x := lo; x <= hi; x++ { buf[x] = c }`
of the track surface. -/
def fillIncl (b : Buf) (lo hi : ℤ) (c : ℕ) : Buf :=
  (List.range (hi + 1 - lo).toNat).foldl (fun bb (k : ℕ) => bufWrite bb (lo + (k : ℤ)) c) b

/-- The obstacle write loop
`for x := lo; x < hi; x++ { if x >= 0 { buf[x] = c } }`. -/
def fillGuard (b : Buf) (lo hi : ℤ) (c : ℕ) : Buf :=
  (List.range (hi - lo).toNat).foldl
    (fun bb (k : ℕ) => if 0 ≤ lo + (k : ℤ) then bufWrite bb (lo + (k : ℤ)) c else bb) b

/-- The star writes of `drawSky`: two hashed positions on every third row,
both guarded against `len(buf)` (both positions are reduced mod `len`). -/
def skyStars (row : ℤ) (b : Buf) : Buf :=
  if Int.tmod row 3 = 0 then
    writeIfIn (writeIfIn b (Int.tmod (row * 17 + 11) (b.data.length : ℤ)) 46)
      (Int.tmod (row * 31 + 7) (b.data.length : ℤ)) 46
  else b

/-- The solid `_` rule one row above the horizon. -/
def skyHorizonLine (row horizon : ℤ) (b : Buf) : Buf :=
  if row = horizon - 1 then ⟨b.data.map fun _ => 95, b.oob⟩ else b

/-- `drawSky`: sparse stars on every third row, then the horizon rule. -/
def drawSky (g : Game) (row horizon : ℤ) (b : Buf) : Buf :=
  skyHorizonLine row horizon (skyStars row b)

/-- Ground texture: a dot every fifth cell, phase-shifted by the row. -/
def groundTexture (row : ℤ) (b : Buf) : Buf :=
  ⟨b.data.mapIdx (fun i c => if Int.tmod ((i : ℤ) + row) 5 = 0 then 46 else c), b.oob⟩

/-- One rail write, guarded against the viewport width. -/
def railWrite (w i : ℤ) (b : Buf) : Buf :=
  if 0 ≤ i ∧ i < w then bufWrite b i 124 else b

/-- Rails: a `|` at each clamped track edge (left written first). -/
def drawRails (w left right : ℤ) (b : Buf) : Buf :=
  railWrite w right (railWrite w left b)

/-- Lane dividers: dashed `:` columns at `left + int(l * laneWidth)` for
lanes `l = 1, 2`, inside the track band. -/
def laneDividers (g : Game) (row left right tw : ℤ) (b : Buf) : Buf :=
  ([1, 2] : List ℤ).foldl
    (fun bb (l : ℤ) =>
      if left < left + qtrunc ((l : ℚ) * ((tw : ℚ) / 3)) ∧
          left + qtrunc ((l : ℚ) * ((tw : ℚ) / 3)) < right ∧
          left + qtrunc ((l : ℚ) * ((tw : ℚ) / 3)) < g.width then
        (if Int.tmod (qtrunc (g.scrollOff * 2) + row) 3 ≠ 0 then
          bufWrite bb (left + qtrunc ((l : ℚ) * ((tw : ℚ) / 3))) 58
        else bb)
      else bb)
    b

/-- Cross-ties: `-` over blank track cells at a scroll-gated row cadence. -/
def crossTies (g : Game) (row left right : ℤ) (b : Buf) : Buf :=
  if Int.tmod (qtrunc ((row : ℚ) + g.scrollOff * 3)) 4 = 0 then
    (List.range (right - (left + 1)).toNat).foldl
      (fun bb (k : ℕ) =>
        if bufRead bb (left + 1 + (k : ℤ)) = 32 then bufWrite bb (left + 1 + (k : ℤ)) 45 else bb)
      b
  else b

/-- Projected screen row of an entity at depth `z`:
`horizon + int((1 - z/farZ) * (height - horizon))`. -/
def entRowOf (g : Game) (horizon : ℤ) (z : ℚ) : ℤ :=
  horizon + qtrunc ((1 - z / 20) * ((g.height - horizon : ℤ) : ℚ))

/-- Perspective-scaled track width at depth `z`:
`int(trackWidth * (1 - z/farZ))` with `trackWidth = 25`. -/
def entTwOf (z : ℚ) : ℤ := qtrunc (25 * (1 - z / 20))

/-- Left x of an obstacle's block glyph. -/
def obsXOf (center lane : ℤ) (z : ℚ) : ℤ :=
  center - Int.tdiv (entTwOf z) 2 +
    qtrunc ((lane : ℚ) * ((entTwOf z : ℚ) / 3) + ((entTwOf z : ℚ) / 3) * (3 / 20))

/-- Width of an obstacle's block glyph (`int(laneWidth*0.7)`, floored at 1). -/
def obsWOf (z : ℚ) : ℤ :=
  if qtrunc (((entTwOf z : ℚ) / 3) * (7 / 10)) < 1 then 1
  else qtrunc (((entTwOf z : ℚ) / 3) * (7 / 10))

/-- Center x of a coin glyph. -/
def coinXOf (center lane : ℤ) (z : ℚ) : ℤ :=
  center - Int.tdiv (entTwOf z) 2 +
    qtrunc ((lane : ℚ) * ((entTwOf z : ℚ) / 3) + ((entTwOf z : ℚ) / 3) * (1 / 2))

/-- Per-obstacle draw pass at one screen row. -/
def drawObstacle (g : Game) (row horizon center : ℤ) (ob : Obstacle) (b : Buf) : Buf :=
  if ob.active = false ∨ ob.z < 1 / 2 then b
  else if (1 - ob.z / 20) < 0 ∨ 1 < (1 - ob.z / 20) then b
  else if entRowOf g horizon ob.z - 2 ≤ row ∧ row ≤ entRowOf g horizon ob.z then
    (if entTwOf ob.z < 3 then b
     else
       fillGuard b (obsXOf center ob.lane ob.z)
         (min (obsXOf center ob.lane ob.z + obsWOf ob.z) g.width) 35)
  else b

/-- Per-coin draw pass at one screen row. -/
def drawCoin (g : Game) (row horizon center : ℤ) (cn : CoinObj) (b : Buf) : Buf :=
  if cn.active = false ∨ cn.z < 1 / 2 then b
  else if (1 - cn.z / 20) < 0 ∨ 1 < (1 - cn.z / 20) then b
  else if row = entRowOf g horizon cn.z then
    (if entTwOf cn.z < 3 then b
     else if 0 ≤ coinXOf center cn.lane cn.z ∧ coinXOf center cn.lane cn.z < g.width then
       bufWrite b (coinXOf center cn.lane cn.z) 111
     else b)
  else b

/-- The runner's screen row: `horizon + int(0.85 * (height - horizon))`. -/
def runnerRowOf (g : Game) (horizon : ℤ) : ℤ :=
  horizon + qtrunc ((17 / 20) * ((g.height - horizon : ℤ) : ℚ))

/-- The runner's x position at the fixed near depth (`rTw = int(25*0.85)`,
`rLW = rTw/3`, `rx = rLeft + int(laneX*rLW + rLW*0.5)`). -/
def runnerXOf (g : Game) (center : ℤ) : ℤ :=
  center - Int.tdiv (qtrunc (25 * (17 / 20))) 2 +
    qtrunc (g.laneX * ((qtrunc (25 * (17 / 20)) : ℚ) / 3) +
      ((qtrunc (25 * (17 / 20)) : ℚ) / 3) * (1 / 2))

/-- The runner sprite: head, body, and a 4-frame leg cycle, drawn at the
fixed near depth `0.85`. -/
def drawRunner (g : Game) (row horizon center : ℤ) (b : Buf) : Buf :=
  if row = runnerRowOf g horizon - 2 then
    (if 0 ≤ runnerXOf g center ∧ runnerXOf g center < g.width then
      bufWrite b (runnerXOf g center) 79
    else b)
  else if row = runnerRowOf g horizon - 1 then
    placeStringBytes b (runnerXOf g center - 1) [47, 124, 92]
  else if row = runnerRowOf g horizon then
    placeStringBytes b (runnerXOf g center - 1)
      ((([[47, 32, 92], [124, 32, 124], [92, 32, 47], [124, 32, 124]] : List (List ℕ)).getD
        (Int.tmod (qtrunc (g.elapsed * 8)) 4).toNat []))
  else b

/-- `drawGround`: perspective track, texture, rails, dividers, cross-ties,
then entities far layers first and the runner last. -/
def drawGround (g : Game) (b : Buf) (row horizon trackLeft : ℤ) : Buf :=
  let depth : ℚ := ((row - horizon : ℤ) : ℚ) / ((g.height - horizon : ℤ) : ℚ)
  if depth ≤ 0 then b
  else
    let tw := if qtrunc (25 * depth) < 3 then 3 else qtrunc (25 * depth)
    let center := Int.tdiv g.width 2
    let left := if center - Int.tdiv tw 2 < 0 then 0 else center - Int.tdiv tw 2
    let right := if g.width ≤ center + Int.tdiv tw 2 then g.width - 1 else center + Int.tdiv tw 2
    let b1 := groundTexture row b
    let b2 := fillIncl b1 left right 32
    let b3 := drawRails g.width left right b2
    let b4 := laneDividers g row left right tw b3
    let b5 := crossTies g row left right b4
    let b6 := g.obstacles.foldl (fun bb o => drawObstacle g row horizon center o bb) b5
    let b7 := g.coinPool.foldl (fun bb c => drawCoin g row horizon center c bb) b6
    drawRunner g row horizon center b7

/-- Decimal digit bytes of a natural number (`%d`). -/
def natDigits (n : ℕ) : List ℕ := (Nat.repr n).data.map Char.toNat

/-- Left zero-padding to width `k`. -/
def padZeros (k : ℕ) (l : List ℕ) : List ℕ := List.replicate (k - l.length) 48 ++ l

/-- Go's `%07d` formatting of an integer. -/
def go07d (n : ℤ) : List ℕ :=
  if n < 0 then 45 :: padZeros 6 (natDigits n.natAbs) else padZeros 7 (natDigits n.natAbs)

/-- Go's `%d` formatting of an integer. -/
def goD (n : ℤ) : List ℕ :=
  if n < 0 then 45 :: natDigits n.natAbs else natDigits n.natAbs

/-- The HUD text `" SCORE: %07d "`. -/
def hudScore (n : ℤ) : List ℕ := [32, 83, 67, 79, 82, 69, 58, 32] ++ go07d n ++ [32]

/-- The HUD text `" COINS: %d "`. -/
def hudCoins (n : ℤ) : List ℕ := [32, 67, 79, 73, 78, 83, 58, 32] ++ goD n ++ [32]

/-- The HUD overlay on row 0: right-aligned score text. -/
def hudScoreOverlay (g : Game) (row : ℤ) (b : Buf) : Buf :=
  if row = 0 then
    placeStringBytes b (g.width - ((hudScore g.score).length : ℤ) - 1) (hudScore g.score)
  else b

/-- The HUD overlay on row 1: right-aligned coin count. -/
def hudCoinsOverlay (g : Game) (row : ℤ) (b : Buf) : Buf :=
  if row = 1 then
    placeStringBytes b (g.width - ((hudCoins g.coins).length : ℤ) - 1) (hudCoins g.coins)
  else b

/-- `renderRow`: a fresh blank buffer, sky or ground, then HUD overlays on
the first two rows. -/
def renderRow (g : Game) (row horizon trackLeft : ℤ) : Buf :=
  hudCoinsOverlay g row
    (hudScoreOverlay g row
      (if row < horizon then drawSky g row horizon ⟨List.replicate g.width.toNat 32, false⟩
       else drawGround g ⟨List.replicate g.width.toNat 32, false⟩ row horizon trackLeft))

/-- The full frame: cursor-home prefix, then every row joined by CR LF. -/
def renderFrame (g : Game) : List ℕ :=
  [27, 91, 72] ++
    (List.range g.height.toNat).foldl
      (fun acc (row : ℕ) =>
        acc ++ (renderRow g (row : ℤ) (Int.tdiv g.height 3) (Int.tdiv (g.width - 25) 2)).data ++
          (if (row : ℤ) < g.height - 1 then [13, 10] else []))
      []

/-- `game.render()`: stores the produced frame in `g.frame` and returns it;
no other field of the game state is touched. -/
def render (g : Game) : Game × List ℕ :=
  ({ g with frame := renderFrame g }, renderFrame g)

/-!  Concrete states used by counterexamples and witnesses. -/

/-- Scenario state of C8: one active obstacle at lane 1, depth 10, stored
speed `6.0` (so `elapsed = 0`, as in a freshly started game). -/
def gC8 : Game :=
  { newGame 80 24 with obstacles := ⟨1, 10, true⟩ :: List.replicate 19 ⟨0, 0, false⟩ }

/-- Counterexample state of C2: the coin spawn timer is due, so a single
`Advance(0)` spawns the three-coin trail at depths 19, 20.5 and 22. -/
def gC2 : Game := { newGame 80 24 with coinTimer := 3 / 5 }

/-- Counterexample state of C7: one active obstacle at depth `0.25`, well
inside `[0, farZ]`, in an 80x24 viewport. -/
def gC7 : Game :=
  { newGame 40 24 with obstacles := [⟨1, 1 / 4, true⟩] }

/-- A blank 40-column row buffer. -/
def bC7 : Buf := ⟨List.replicate 40 32, false⟩

/-- Witness state for C7's amended claim: an obstacle at depth 10. -/
def gC7w : Game :=
  { newGame 40 24 with obstacles := [⟨1, 10, true⟩] }

/-- Witness state for C1: one coin dead ahead of the runner. -/
def gC1w : Game :=
  { newGame 80 24 with coinPool := [⟨1, 1, true⟩] }

/-- Witness state for C9: both pools completely full. -/
def gC9w : Game :=
  { newGame 80 24 with
    obstacles := List.replicate 20 ⟨0, 5, true⟩,
    coinPool := List.replicate 30 ⟨1, 6, true⟩ }

/-!  Helper lemmas. -/

theorem spawnSlotObs_full (lane : ℤ) (l : List Obstacle) (h : ∀ o ∈ l, o.active = true) :
    spawnSlotObs lane l = l := by
  induction l with
  | nil => rfl
  | cons o os ih =>
    have ho := h o (by simp)
    simp only [spawnSlotObs, ho, if_true]
    rw [ih fun x hx => h x (by simp [hx])]

theorem spawnSlotCoin_full (lane : ℤ) (z : ℚ) (l : List CoinObj)
    (h : ∀ c ∈ l, c.active = true) : spawnSlotCoin lane z l = l := by
  induction l with
  | nil => rfl
  | cons c cs ih =>
    have hc := h c (by simp)
    simp only [spawnSlotCoin, hc, if_true]
    rw [ih fun x hx => h x (by simp [hx])]

theorem spawnSlotObs_mem {lane : ℤ} {l : List Obstacle} {x : Obstacle}
    (h : x ∈ spawnSlotObs lane l) : x ∈ l ∨ x = ⟨lane, 19, true⟩ := by
  induction l with
  | nil => simp [spawnSlotObs] at h
  | cons o os ih =>
    by_cases ho : o.active
    · simp only [spawnSlotObs, ho, if_true, List.mem_cons] at h
      rcases h with h | h
      · exact Or.inl (by simp [h])
      · rcases ih h with h2 | h2
        · exact Or.inl (by simp [h2])
        · exact Or.inr h2
    · simp only [spawnSlotObs, ho, if_false, Bool.false_eq_true, List.mem_cons] at h
      rcases h with h | h
      · exact Or.inr h
      · exact Or.inl (by simp [h])

theorem spawnSlotCoin_mem {lane : ℤ} {z : ℚ} {l : List CoinObj} {x : CoinObj}
    (h : x ∈ spawnSlotCoin lane z l) : x ∈ l ∨ x = ⟨lane, z, true⟩ := by
  induction l with
  | nil => simp [spawnSlotCoin] at h
  | cons c cs ih =>
    by_cases hc : c.active
    · simp only [spawnSlotCoin, hc, if_true, List.mem_cons] at h
      rcases h with h | h
      · exact Or.inl (by simp [h])
      · rcases ih h with h2 | h2
        · exact Or.inl (by simp [h2])
        · exact Or.inr h2
    · simp only [spawnSlotCoin, hc, if_false, Bool.false_eq_true, List.mem_cons] at h
      rcases h with h | h
      · exact Or.inr h
      · exact Or.inl (by simp [h])

theorem spawnCoinTrail_mem {lane : ℤ} {pool : List CoinObj} {x : CoinObj}
    (h : x ∈ spawnCoinTrail lane pool) :
    x ∈ pool ∨ x.z = 19 ∨ x.z = 41 / 2 ∨ x.z = 22 := by
  unfold spawnCoinTrail at h
  rcases spawnSlotCoin_mem h with h1 | h1
  · rcases spawnSlotCoin_mem h1 with h2 | h2
    · rcases spawnSlotCoin_mem h2 with h3 | h3
      · exact Or.inl h3
      · subst h3; norm_num
    · subst h2; norm_num
  · subst h1; norm_num

theorem moveCoins_fst (rl : ℤ) (dz : ℚ) (pool : List CoinObj) :
    (moveCoins rl dz pool).1 = pool.map fun c => (coinStep rl dz c).1 := by
  induction pool with
  | nil => rfl
  | cons c cs ih => simp [moveCoins, ih]

theorem coinStep_snd (rl : ℤ) (dz : ℚ) (c : CoinObj) :
    (coinStep rl dz c).2 = if collectB rl dz c then 1 else 0 := by
  unfold coinStep collectB
  by_cases hc : c.active = true
  · simp only [hc, if_true, Bool.true_and]
    by_cases h1 : c.z - dz < 2 ∧ 0 < c.z - dz ∧ c.lane = rl
    · rw [if_pos h1]
      simp [h1.1, h1.2.1, h1.2.2]
    · rw [if_neg h1]
      rcases not_and_or.mp h1 with h2 | h2
      · simp [h2]
      · rcases not_and_or.mp h2 with h3 | h3 <;> simp [h3]
  · simp [hc]

theorem moveCoins_snd (rl : ℤ) (dz : ℚ) (pool : List CoinObj) :
    (moveCoins rl dz pool).2 = pool.countP (collectB rl dz) := by
  induction pool with
  | nil => rfl
  | cons c cs ih =>
    simp only [moveCoins, ih, List.countP_cons, coinStep_snd]
    by_cases h : collectB rl dz c <;> simp [h] <;> omega

theorem coinStep_collect {rl : ℤ} {dz : ℚ} {c : CoinObj} (h : collectB rl dz c = true) :
    (coinStep rl dz c).1 = ⟨c.lane, c.z - dz, false⟩ := by
  unfold collectB at h
  simp only [Bool.and_eq_true, decide_eq_true_eq] at h
  unfold coinStep
  rw [if_pos h.1.1.1, if_pos ⟨h.1.1.2, h.1.2, h.2⟩]

theorem coinStep_inactive {rl : ℤ} {dz : ℚ} {c : CoinObj} (h : c.active = false) :
    (coinStep rl dz c).1 = c ∧ collectB rl dz c = false := by
  constructor
  · unfold coinStep
    rw [h]
    simp
  · unfold collectB
    rw [h]
    simp

theorem update_coins (g : Game) (dt : ℚ) (ol cl : ℤ) :
    (update g dt ol cl).coins =
      g.coins + ((moveCoins g.runnerLane (newSpeed g dt * dt) g.coinPool).2 : ℤ) := rfl

theorem update_score (g : Game) (dt : ℚ) (ol cl : ℤ) :
    (update g dt ol cl).score =
      g.score + qtrunc (g.speed * dt * 10) +
        50 * ((moveCoins g.runnerLane (newSpeed g dt * dt) g.coinPool).2 : ℤ) := rfl

theorem update_obstacles (g : Game) (dt : ℚ) (ol cl : ℤ) :
    (update g dt ol cl).obstacles =
      (if (if 2 - newSpeed g dt * (3 / 50) < 7 / 10 then 7 / 10 else 2 - newSpeed g dt * (3 / 50)) ≤
            g.spawnTimer + dt
       then spawnSlotObs ol (g.obstacles.map (obsStep (newSpeed g dt * dt)))
       else g.obstacles.map (obsStep (newSpeed g dt * dt))) := rfl

theorem update_coinPool (g : Game) (dt : ℚ) (ol cl : ℤ) :
    (update g dt ol cl).coinPool =
      (if 3 / 5 ≤ g.coinTimer + dt
       then spawnCoinTrail cl (moveCoins g.runnerLane (newSpeed g dt * dt) g.coinPool).1
       else (moveCoins g.runnerLane (newSpeed g dt * dt) g.coinPool).1) := rfl

theorem newSpeed_bounds (g : Game) (dt : ℚ) (he : 0 ≤ g.elapsed) (hdt : 0 ≤ dt) :
    6 ≤ newSpeed g dt ∧ newSpeed g dt ≤ 16 := by
  unfold newSpeed
  split <;> constructor <;> nlinarith

theorem obsStep_bound {dz : ℚ} {o : Obstacle} (hdz : 0 ≤ dz) (hz : o.active = true → o.z ≤ 19) :
    (obsStep dz o).active = true → -1 ≤ (obsStep dz o).z ∧ (obsStep dz o).z ≤ 19 := by
  unfold obsStep
  by_cases ha : o.active = true
  · have hb := hz ha
    simp only [ha, if_true]
    by_cases hlow : o.z - dz < -1
    · simp [hlow]
    · intro _
      constructor <;> [linarith [not_lt.mp hlow]; linarith]
  · simp only [Bool.not_eq_true] at ha
    simp [ha]

theorem coinStep_bound {rl : ℤ} {dz : ℚ} {c : CoinObj} (hdz : 0 ≤ dz)
    (hz : c.active = true → c.z ≤ 22) :
    (coinStep rl dz c).1.active = true → -1 ≤ (coinStep rl dz c).1.z ∧ (coinStep rl dz c).1.z ≤ 22 := by
  unfold coinStep
  by_cases ha : c.active = true
  · have hb := hz ha
    simp only [ha, if_true]
    by_cases hcol : c.z - dz < 2 ∧ 0 < c.z - dz ∧ c.lane = rl
    · simp [hcol]
    · rw [if_neg hcol]
      by_cases hlow : c.z - dz < -1
      · simp [hlow]
      · rw [if_neg hlow]
        dsimp only
        intro _
        constructor <;> [linarith [not_lt.mp hlow]; linarith]
  · simp only [Bool.not_eq_true] at ha
    simp [ha]

theorem speedOf_mono {e f : ℚ} (h : e ≤ f) : speedOf e ≤ speedOf f := by
  unfold speedOf
  split <;> split <;> linarith

theorem speedOf_bounds {e : ℚ} (he : 0 ≤ e) : 6 ≤ speedOf e ∧ speedOf e ≤ 16 := by
  unfold speedOf
  split <;> constructor <;> linarith

theorem update_speed (g : Game) (dt : ℚ) (ol cl : ℤ) :
    (update g dt ol cl).speed = speedOf (g.elapsed + dt) := rfl

theorem update_elapsed (g : Game) (dt : ℚ) (ol cl : ℤ) :
    (update g dt ol cl).elapsed = g.elapsed + dt := rfl

theorem update_SpeedInv {g : Game} (dt : ℚ) (ol cl : ℤ) (h : SpeedInv g) (hdt : 0 < dt) :
    SpeedInv (update g dt ol cl) ∧ g.speed ≤ (update g dt ol cl).speed := by
  obtain ⟨hs, he⟩ := h
  refine ⟨⟨?_, ?_⟩, ?_⟩
  · rw [update_speed, update_elapsed]
  · rw [update_elapsed]; linarith
  · rw [update_speed, hs]
    exact speedOf_mono (by linarith)

theorem traj_head (g : Game) (l : List (ℚ × ℤ × ℤ)) : (traj g l).head? = some g := by
  cases l <;> rfl

theorem traj_self_mem (g : Game) (l : List (ℚ × ℤ × ℤ)) : g ∈ traj g l := by
  cases l <;> simp [traj]

theorem traj_good (l : List (ℚ × ℤ × ℤ)) :
    ∀ g : Game, SpeedInv g → (∀ p ∈ l, 0 < p.1) →
      List.Chain' (fun a b : Game => a.speed ≤ b.speed ∧ (a.speed = 16 → b.speed = 16))
          (traj g l) ∧
        ∀ s ∈ traj g l, 6 ≤ s.speed ∧ s.speed ≤ 16 := by
  induction l with
  | nil =>
    intro g hg _
    refine ⟨by simp [traj], ?_⟩
    intro s hs
    simp only [traj, List.mem_singleton] at hs
    subst hs
    rw [hg.1]
    exact speedOf_bounds hg.2
  | cons p l ih =>
    intro g hg hp
    have hdt : 0 < p.1 := hp p (by simp)
    obtain ⟨hg2, hle⟩ := update_SpeedInv p.1 p.2.1 p.2.2 hg hdt
    obtain ⟨hch, hmem⟩ := ih (update g p.1 p.2.1 p.2.2) hg2 fun q hq => hp q (by simp [hq])
    constructor
    · show List.Chain' _ (g :: traj (update g p.1 p.2.1 p.2.2) l)
      rw [List.chain'_cons']
      refine ⟨?_, hch⟩
      intro y hy
      rw [traj_head] at hy
      simp only [Option.mem_def, Option.some_inj] at hy
      subst hy
      refine ⟨hle, fun h16 => ?_⟩
      have hb := hmem (update g p.1 p.2.1 p.2.2) (traj_self_mem _ l)
      exact le_antisymm hb.2 (h16 ▸ hle)
    · intro s hs
      show 6 ≤ s.speed ∧ s.speed ≤ 16
      rcases List.mem_cons.mp hs with h | h
      · subst h
        rw [hg.1]
        exact speedOf_bounds hg.2
      · exact hmem s h

theorem bestLaneFold_cases (g : Game) :
    bestLaneFold g = -1 ∨
      (0 ≤ bestLaneFold g ∧ bestLaneFold g ≤ 2 ∧ dangerLane g (bestLaneFold g) = false) := by
  unfold bestLaneFold
  simp only [List.foldl]
  rcases h0 : dangerLane g 0 <;> rcases h1 : dangerLane g 1 <;> rcases h2 : dangerLane g 2 <;>
    simp [h0, h1, h2] <;> split_ifs <;> simp_all

theorem bestLaneFold_all_danger (g : Game) (h0 : dangerLane g 0 = true)
    (h1 : dangerLane g 1 = true) (h2 : dangerLane g 2 = true) : bestLaneFold g = -1 := by
  unfold bestLaneFold
  simp [List.foldl, h0, h1, h2]

theorem autoDodge_of_target_eq {g : Game} (h : dodgeTarget g = g.targetLane) :
    autoDodge g = g := by
  unfold autoDodge
  rw [h]

theorem bufWrite_length (b : Buf) (i : ℤ) (c : ℕ) :
    (bufWrite b i c).data.length = b.data.length := by
  unfold bufWrite
  split <;> simp

theorem bufWrite_ok {b : Buf} {w i : ℤ} (c : ℕ) (hb : Buf.ok b w) (h0 : 0 ≤ i) (h1 : i < w) :
    Buf.ok (bufWrite b i c) w := by
  obtain ⟨ho, hl⟩ := hb
  unfold bufWrite
  rw [if_pos ⟨h0, by omega⟩]
  exact ⟨ho, by simpa using hl⟩

theorem bufWrite_get_self {b : Buf} {i : ℤ} (c : ℕ) (h0 : 0 ≤ i)
    (h1 : i < (b.data.length : ℤ)) :
    ((bufWrite b i c).data)[i.toNat]? = some c := by
  unfold bufWrite
  rw [if_pos ⟨h0, h1⟩]
  exact List.getElem?_set_eq_of_lt c (by omega)

theorem bufWrite_get_ne {b : Buf} {i x : ℤ} (c : ℕ) (hx : 0 ≤ x) (hne : i ≠ x) :
    ((bufWrite b i c).data)[x.toNat]? = b.data[x.toNat]? := by
  unfold bufWrite
  split
  · next h => exact List.getElem?_set_ne (by omega)
  · rfl

theorem writeIfIn_ok {b : Buf} {w : ℤ} (i : ℤ) (c : ℕ) (hb : Buf.ok b w) :
    Buf.ok (writeIfIn b i c) w := by
  unfold writeIfIn
  split
  · next h =>
    refine bufWrite_ok c hb h.1 ?_
    have := hb.2
    omega
  · exact hb

theorem foldl_ok {α : Type} (P : Buf → Prop) {f : Buf → α → Buf} {l : List α} {b : Buf}
    (hf : ∀ bb a, a ∈ l → P bb → P (f bb a)) (hb : P b) : P (l.foldl f b) := by
  induction l generalizing b with
  | nil => exact hb
  | cons a l ih =>
    exact ih (fun bb q hq hbb => hf bb q (by simp [hq]) hbb) (hf b a (by simp) hb)

theorem placeStringBytes_ok {w : ℤ} :
    ∀ (s : List ℕ) (b : Buf) (x : ℤ), Buf.ok b w → Buf.ok (placeStringBytes b x s) w := by
  intro s
  induction s with
  | nil => intro b x hb; exact hb
  | cons c s ih =>
    intro b x hb
    unfold placeStringBytes
    exact ih _ _ (writeIfIn_ok x c hb)

theorem fillIncl_ok {b : Buf} {w lo hi : ℤ} (c : ℕ) (hb : Buf.ok b w) (hlo : 0 ≤ lo)
    (hhi : hi < w) : Buf.ok (fillIncl b lo hi c) w := by
  unfold fillIncl
  apply foldl_ok (fun bb => Buf.ok bb w) (fun bb k hk hbb => ?_) hb
  have hk2 : (k : ℤ) < hi + 1 - lo := by
    have := List.mem_range.mp hk
    omega
  exact bufWrite_ok c hbb (by omega) (by omega)

theorem fillGuard_ok {b : Buf} {w lo hi : ℤ} (c : ℕ) (hb : Buf.ok b w) (hhi : hi ≤ w) :
    Buf.ok (fillGuard b lo hi c) w := by
  unfold fillGuard
  apply foldl_ok (fun bb => Buf.ok bb w) (fun bb k hk hbb => ?_) hb
  have hk2 : (k : ℤ) < hi - lo := by
    have := List.mem_range.mp hk
    omega
  split
  · next h => exact bufWrite_ok c hbb h (by omega)
  · exact hbb

theorem fillGuardAux_length (c : ℕ) (n : ℕ) (b : Buf) (lo : ℤ) :
    ((List.range n).foldl
        (fun bb (k : ℕ) => if 0 ≤ lo + (k : ℤ) then bufWrite bb (lo + (k : ℤ)) c else bb)
        b).data.length = b.data.length := by
  apply foldl_ok (fun bb => bb.data.length = b.data.length)
  · intro bb k hk hbb
    split
    · rw [bufWrite_length, hbb]
    · exact hbb
  · rfl

theorem fillGuardAux_get (c : ℕ) :
    ∀ (n : ℕ) (b : Buf) (lo x : ℤ), lo ≤ x → x < lo + (n : ℤ) → 0 ≤ x →
      x < (b.data.length : ℤ) →
      (((List.range n).foldl
          (fun bb (k : ℕ) => if 0 ≤ lo + (k : ℤ) then bufWrite bb (lo + (k : ℤ)) c else bb)
          b).data)[x.toNat]? = some c := by
  intro n
  induction n with
  | zero => intro b lo x h1 h2 h3 h4; omega
  | succ m ih =>
    intro b lo x h1 h2 h3 h4
    rw [List.range_succ, List.foldl_append, List.foldl_cons, List.foldl_nil]
    by_cases hxm : x < lo + (m : ℤ)
    · have hmid := ih b lo x h1 (by omega) h3 h4
      split
      · rw [bufWrite_get_ne c h3 (by omega)]
        exact hmid
      · exact hmid
    · have hxx : lo + (m : ℤ) = x := by omega
      rw [if_pos (by omega), hxx]
      refine bufWrite_get_self c h3 ?_
      rw [fillGuardAux_length]
      omega

theorem fillGuard_get {b : Buf} {lo hi x : ℤ} (c : ℕ) (hlo : lo ≤ x) (hhi : x < hi)
    (hx : 0 ≤ x) (hlen : x < (b.data.length : ℤ)) :
    ((fillGuard b lo hi c).data)[x.toNat]? = some c := by
  unfold fillGuard
  exact fillGuardAux_get c (hi - lo).toNat b lo x hlo (by omega) hx hlen

theorem groundTexture_ok {b : Buf} {w : ℤ} (row : ℤ) (hb : Buf.ok b w) :
    Buf.ok (groundTexture row b) w := by
  obtain ⟨ho, hl⟩ := hb
  exact ⟨ho, by simpa [groundTexture] using hl⟩

theorem skyStars_ok {b : Buf} {w : ℤ} (row : ℤ) (hb : Buf.ok b w) :
    Buf.ok (skyStars row b) w := by
  unfold skyStars
  split
  · exact writeIfIn_ok _ _ (writeIfIn_ok _ _ hb)
  · exact hb

theorem skyHorizonLine_ok {b : Buf} {w : ℤ} (row horizon : ℤ) (hb : Buf.ok b w) :
    Buf.ok (skyHorizonLine row horizon b) w := by
  unfold skyHorizonLine
  split
  · exact ⟨hb.1, by simpa using hb.2⟩
  · exact hb

theorem drawSky_ok {b : Buf} {w : ℤ} (g : Game) (row horizon : ℤ) (hb : Buf.ok b w) :
    Buf.ok (drawSky g row horizon b) w :=
  skyHorizonLine_ok row horizon (skyStars_ok row hb)

theorem railWrite_ok {b : Buf} {w : ℤ} (i : ℤ) (hb : Buf.ok b w) :
    Buf.ok (railWrite w i b) w := by
  unfold railWrite
  split
  · next h => exact bufWrite_ok 124 hb h.1 h.2
  · exact hb

theorem drawRails_ok {b : Buf} {w : ℤ} (left right : ℤ) (hb : Buf.ok b w) :
    Buf.ok (drawRails w left right b) w :=
  railWrite_ok right (railWrite_ok left hb)

theorem laneDividers_ok {b : Buf} (g : Game) (row left right tw : ℤ) (hleft : 0 ≤ left)
    (hb : Buf.ok b g.width) : Buf.ok (laneDividers g row left right tw b) g.width := by
  unfold laneDividers
  apply foldl_ok (fun bb => Buf.ok bb g.width) (fun bb l hl hbb => ?_) hb
  split
  · next h =>
    split
    · exact bufWrite_ok 58 hbb (by omega) h.2.2
    · exact hbb
  · exact hbb

theorem crossTies_ok {b : Buf} (g : Game) (row left right : ℤ) (hleft : 0 ≤ left)
    (hright : right < g.width) (hb : Buf.ok b g.width) :
    Buf.ok (crossTies g row left right b) g.width := by
  unfold crossTies
  split
  · apply foldl_ok (fun bb => Buf.ok bb g.width) (fun bb k hk hbb => ?_) hb
    have hk2 : (k : ℤ) < right - (left + 1) := by
      have := List.mem_range.mp hk
      omega
    split
    · exact bufWrite_ok 45 hbb (by omega) (by omega)
    · exact hbb
  · exact hb

theorem drawObstacle_ok {b : Buf} (g : Game) (row horizon center : ℤ) (ob : Obstacle)
    (hb : Buf.ok b g.width) : Buf.ok (drawObstacle g row horizon center ob b) g.width := by
  unfold drawObstacle
  split
  · exact hb
  · split
    · exact hb
    · split
      · split
        · exact hb
        · exact fillGuard_ok 35 hb (min_le_right _ _)
      · exact hb

theorem drawCoin_ok {b : Buf} (g : Game) (row horizon center : ℤ) (cn : CoinObj)
    (hb : Buf.ok b g.width) : Buf.ok (drawCoin g row horizon center cn b) g.width := by
  unfold drawCoin
  split
  · exact hb
  · split
    · exact hb
    · split
      · split
        · exact hb
        · split
          · next h => exact bufWrite_ok 111 hb h.1 h.2
          · exact hb
      · exact hb

theorem drawRunner_ok {b : Buf} (g : Game) (row horizon center : ℤ)
    (hb : Buf.ok b g.width) : Buf.ok (drawRunner g row horizon center b) g.width := by
  unfold drawRunner
  split
  · split
    · next h => exact bufWrite_ok 79 hb h.1 h.2
    · exact hb
  · split
    · exact placeStringBytes_ok _ _ _ hb
    · split
      · exact placeStringBytes_ok _ _ _ hb
      · exact hb

theorem drawGround_ok (g : Game) (b : Buf) (row horizon trackLeft : ℤ)
    (hb : Buf.ok b g.width) : Buf.ok (drawGround g b row horizon trackLeft) g.width := by
  unfold drawGround
  dsimp only
  split
  · exact hb
  · apply drawRunner_ok
    apply foldl_ok (fun bb => Buf.ok bb g.width) (fun bb c hc hbb => drawCoin_ok g row horizon _ c hbb)
    apply foldl_ok (fun bb => Buf.ok bb g.width) (fun bb o ho hbb => drawObstacle_ok g row horizon _ o hbb)
    refine crossTies_ok g row _ _ (by split <;> omega) (by split <;> omega) ?_
    refine laneDividers_ok g row _ _ _ (by split <;> omega) ?_
    apply drawRails_ok
    refine fillIncl_ok 32 ?_ (by split <;> omega) (by split <;> omega)
    exact groundTexture_ok row hb

/-!  Claim theorems. -/

/-- C10: `Advance` performs no obstacle-runner collision handling — two
states that differ only in the obstacle pool produce, after one `update`,
the same score, coin count, speed, elapsed time, scroll offset, and coin
pool. -/
theorem claim_C10 (g : Game) (obs2 : List Obstacle) (dt : ℚ) (ol cl : ℤ) :
    (update { g with obstacles := obs2 } dt ol cl).score = (update g dt ol cl).score ∧
      (update { g with obstacles := obs2 } dt ol cl).coins = (update g dt ol cl).coins ∧
      (update { g with obstacles := obs2 } dt ol cl).speed = (update g dt ol cl).speed ∧
      (update { g with obstacles := obs2 } dt ol cl).elapsed = (update g dt ol cl).elapsed ∧
      (update { g with obstacles := obs2 } dt ol cl).scrollOff = (update g dt ol cl).scrollOff ∧
      (update { g with obstacles := obs2 } dt ol cl).coinPool = (update g dt ol cl).coinPool :=
  ⟨rfl, rfl, rfl, rfl, rfl, rfl⟩

/-- C9: a spawn request against a fully occupied pool is silently dropped —
the game state is returned entirely unchanged, for both pools. -/
theorem claim_C9 (g : Game) (lane lane2 : ℤ) :
    ((∀ o ∈ g.obstacles, o.active = true) → spawnObstacle g lane = g) ∧
      ((∀ c ∈ g.coinPool, c.active = true) → spawnCoin g lane2 = g) := by
  constructor
  · intro h
    unfold spawnObstacle
    rw [spawnSlotObs_full lane _ h]
  · intro h
    unfold spawnCoin spawnCoinTrail
    rw [spawnSlotCoin_full _ _ _ h, spawnSlotCoin_full _ _ _ h, spawnSlotCoin_full _ _ _ h]

/-- C9 witness: with all 20 obstacle slots and all 30 coin slots active,
both spawns are no-ops. -/
theorem claim_C9_witness :
    (∀ o ∈ gC9w.obstacles, o.active = true) ∧ (∀ c ∈ gC9w.coinPool, c.active = true) ∧
      spawnObstacle gC9w 2 = gC9w ∧ spawnCoin gC9w 1 = gC9w :=
  ⟨by with_unfolding_all decide, by with_unfolding_all decide, (claim_C9 gC9w 2 1).1 (by with_unfolding_all decide), (claim_C9 gC9w 2 1).2 (by with_unfolding_all decide)⟩

/-- C8 counterexample: from the scenario state (obstacle at lane 1, depth
10, stored speed 6.0), `Advance(1.0)` does not leave the obstacle at depth
4.0 — the ramp first raises the speed to 6.05. -/
theorem claim_C8_counterexample :
    gC8.speed = 6 ∧ gC8.obstacles.head? = some ⟨1, 10, true⟩ ∧
      ((update gC8 1 0 0).obstacles.headD ⟨0, 0, false⟩).z ≠ 4 := by
  with_unfolding_all decide

/-- C8 (amended): after `Advance(1.0)` the obstacle sits at depth
`3.95 = 10 - 6.05`, because the speed is recomputed to
`6 + (0 + 1)·0.05 = 6.05` before the move; it is still active. -/
theorem claim_C8 :
    newSpeed gC8 1 = 121 / 20 ∧
      (update gC8 1 0 0).obstacles.head? = some ⟨1, 79 / 20, true⟩ := by
  with_unfolding_all decide

/-- C6: `render` mutates nothing but the stored frame: every other field of
the game state is unchanged by a call to `render`. -/
theorem claim_C6 (g : Game) :
    (render g).1.width = g.width ∧ (render g).1.height = g.height ∧
      (render g).1.speed = g.speed ∧ (render g).1.score = g.score ∧
      (render g).1.coins = g.coins ∧ (render g).1.runnerLane = g.runnerLane ∧
      (render g).1.targetLane = g.targetLane ∧ (render g).1.laneX = g.laneX ∧
      (render g).1.obstacles = g.obstacles ∧ (render g).1.coinPool = g.coinPool ∧
      (render g).1.scrollOff = g.scrollOff ∧ (render g).1.elapsed = g.elapsed ∧
      (render g).1.spawnTimer = g.spawnTimer ∧ (render g).1.coinTimer = g.coinTimer :=
  ⟨rfl, rfl, rfl, rfl, rfl, rfl, rfl, rfl, rfl, rfl, rfl, rfl, rfl, rfl⟩

/-- C3: the dodge pass leaves `targetLane` alone when the current target is
safe, leaves it alone when every lane is dangerous, and any change implies
the target was dangerous while some lane was safe. -/
theorem claim_C3 (g : Game) :
    (dangerLane g g.targetLane = false → autoDodge g = g) ∧
      ((∀ l ∈ ([0, 1, 2] : List ℤ), dangerLane g l = true) → autoDodge g = g) ∧
      ((autoDodge g).targetLane ≠ g.targetLane →
        dangerLane g g.targetLane = true ∧ ∃ l ∈ ([0, 1, 2] : List ℤ), dangerLane g l = false) := by
  refine ⟨?_, ?_, ?_⟩
  · intro h
    apply autoDodge_of_target_eq
    unfold dodgeTarget
    simp [h]
  · intro h
    apply autoDodge_of_target_eq
    unfold dodgeTarget
    have hb := bestLaneFold_all_danger g (h 0 (by simp)) (h 1 (by simp)) (h 2 (by simp))
    rw [hb]
    split <;> simp
  · intro h
    have ht : (autoDodge g).targetLane = dodgeTarget g := rfl
    rw [ht] at h
    unfold dodgeTarget at h
    by_cases hd : dangerLane g g.targetLane
    · refine ⟨hd, ?_⟩
      rw [if_pos hd] at h
      rcases bestLaneFold_cases g with hc | hc
      · rw [hc] at h; simp at h
      · obtain ⟨h0, h2, hsafe⟩ := hc
        refine ⟨bestLaneFold g, ?_, hsafe⟩
        have h012 : bestLaneFold g = 0 ∨ bestLaneFold g = 1 ∨ bestLaneFold g = 2 := by omega
        rcases h012 with h3 | h3 | h3 <;> simp [h3]
    · rw [if_neg hd] at h
      exact absurd rfl h

/-- C3 witness: in a fresh game no lane is dangerous, and the dodge pass
leaves the state untouched. -/
theorem claim_C3_witness :
    dangerLane (newGame 80 24) (newGame 80 24).targetLane = false ∧
      autoDodge (newGame 80 24) = newGame 80 24 :=
  ⟨by with_unfolding_all decide, (claim_C3 (newGame 80 24)).1 (by with_unfolding_all decide)⟩

/-- C1: a coin whose moved depth lands in `(0, 2)` on the runner's lane is
collected: the coin pass deactivates exactly that slot, `coins` grows by
the number of coins satisfying the condition, `score` gains 50 per
collected coin, and inactive coins are never collected. -/
theorem claim_C1 (g : Game) (dt : ℚ) (ol cl : ℤ) (i : ℕ) (c : CoinObj)
    (hdt0 : 0 < dt) (hdt1 : dt ≤ 1 / 10)
    (hc : g.coinPool[i]? = some c)
    (hcol : collectB g.runnerLane (newSpeed g dt * dt) c = true) :
    (update g dt ol cl).coins =
        g.coins + ((g.coinPool.countP (collectB g.runnerLane (newSpeed g dt * dt))) : ℤ) ∧
      (update g dt ol cl).score =
        g.score + qtrunc (g.speed * dt * 10) +
          50 * ((g.coinPool.countP (collectB g.runnerLane (newSpeed g dt * dt))) : ℤ) ∧
      (moveCoins g.runnerLane (newSpeed g dt * dt) g.coinPool).1[i]? =
        some ⟨c.lane, c.z - newSpeed g dt * dt, false⟩ ∧
      (∀ (j : ℕ) (d : CoinObj), g.coinPool[j]? = some d → d.active = false →
        (moveCoins g.runnerLane (newSpeed g dt * dt) g.coinPool).1[j]? = some d ∧
          collectB g.runnerLane (newSpeed g dt * dt) d = false) := by
  refine ⟨?_, ?_, ?_, ?_⟩
  · rw [update_coins, moveCoins_snd]
  · rw [update_score, moveCoins_snd]
  · rw [moveCoins_fst, List.getElem?_map, hc]
    simp only [Option.map_some']
    rw [coinStep_collect hcol]
  · intro j d hd hact
    refine ⟨?_, ?_⟩
    · rw [moveCoins_fst, List.getElem?_map, hd]
      simp only [Option.map_some']
      rw [(@coinStep_inactive g.runnerLane (newSpeed g dt * dt) d hact).1]
    · exact (coinStep_inactive hact).2

/-- C1 witness: in `gC1w` the single coin at depth 1 in the runner's lane
is collected by `Advance(0.05)`. -/
theorem claim_C1_witness :
    (0 < (1 / 20 : ℚ) ∧ (1 / 20 : ℚ) ≤ 1 / 10 ∧
        gC1w.coinPool[0]? = some ⟨1, 1, true⟩ ∧
        collectB gC1w.runnerLane (newSpeed gC1w (1 / 20) * (1 / 20)) ⟨1, 1, true⟩ = true) ∧
      (update gC1w (1 / 20) 0 0).coins =
        gC1w.coins +
          ((gC1w.coinPool.countP (collectB gC1w.runnerLane (newSpeed gC1w (1 / 20) * (1 / 20)))) : ℤ) ∧
      (update gC1w (1 / 20) 0 0).score =
        gC1w.score + qtrunc (gC1w.speed * (1 / 20) * 10) +
          50 * ((gC1w.coinPool.countP (collectB gC1w.runnerLane (newSpeed gC1w (1 / 20) * (1 / 20)))) : ℤ) ∧
      (moveCoins gC1w.runnerLane (newSpeed gC1w (1 / 20) * (1 / 20)) gC1w.coinPool).1[0]? =
        some ⟨1, 1 - newSpeed gC1w (1 / 20) * (1 / 20), false⟩ ∧
      (∀ (j : ℕ) (d : CoinObj), gC1w.coinPool[j]? = some d → d.active = false →
        (moveCoins gC1w.runnerLane (newSpeed gC1w (1 / 20) * (1 / 20)) gC1w.coinPool).1[j]? = some d ∧
          collectB gC1w.runnerLane (newSpeed gC1w (1 / 20) * (1 / 20)) d = false) :=
  ⟨⟨by with_unfolding_all decide, by with_unfolding_all decide, by with_unfolding_all decide, by with_unfolding_all decide⟩,
    claim_C1 gC1w (1 / 20) 0 0 0 ⟨1, 1, true⟩ (by with_unfolding_all decide) (by with_unfolding_all decide) (by with_unfolding_all decide)
      (by with_unfolding_all decide)⟩

/-- C2 counterexample: from a benign state (every pool entry inactive) whose
coin spawn timer is due, a single `Advance(0)` leaves an active coin at
depth `22 > spawnZ = 19`: the coin trail spawns above the spawn depth. -/
theorem claim_C2_counterexample :
    (∀ c ∈ gC2.coinPool, c.active = false) ∧
      (update gC2 0 0 0).coinPool[2]? = some ⟨0, 22, true⟩ ∧ (19 : ℚ) < 22 := by
  refine ⟨by with_unfolding_all decide, ?_, by norm_num⟩
  with_unfolding_all decide

/-- C2 (amended): after `Advance(dt)` with `dt ≥ 0` from a state satisfying
the depth invariant, every active obstacle has depth in `[-1, 19]` and
every active coin has depth in `[-1, 22]` — the coin bound is
`spawnZ + 2·1.5 = 22`, not `spawnZ`, because the coin trail spawns at
offsets up to 3 above the spawn depth. -/
theorem claim_C2 (g : Game) (dt : ℚ) (ol cl : ℤ)
    (hdt : 0 ≤ dt) (he : 0 ≤ g.elapsed)
    (hobs : ∀ o ∈ g.obstacles, o.active = true → o.z ≤ 19)
    (hcoins : ∀ c ∈ g.coinPool, c.active = true → c.z ≤ 22) :
    (∀ o ∈ (update g dt ol cl).obstacles, o.active = true → -1 ≤ o.z ∧ o.z ≤ 19) ∧
      ∀ c ∈ (update g dt ol cl).coinPool, c.active = true → -1 ≤ c.z ∧ c.z ≤ 22 := by
  have hdz : 0 ≤ newSpeed g dt * dt :=
    mul_nonneg (by linarith [(newSpeed_bounds g dt he hdt).1]) hdt
  constructor
  · intro o ho
    rw [update_obstacles] at ho
    have hmem : o ∈ g.obstacles.map (obsStep (newSpeed g dt * dt)) ∨ o = ⟨ol, 19, true⟩ := by
      split at ho <;> split at ho <;>
        first
          | exact spawnSlotObs_mem ho
          | exact Or.inl ho
    rcases hmem with h | h
    · obtain ⟨o0, ho0, rfl⟩ := List.mem_map.mp h
      exact obsStep_bound hdz (hobs o0 ho0)
    · subst h
      intro _
      norm_num
  · intro c hc
    rw [update_coinPool] at hc
    have hmem :
        c ∈ (moveCoins g.runnerLane (newSpeed g dt * dt) g.coinPool).1 ∨
          c.z = 19 ∨ c.z = 41 / 2 ∨ c.z = 22 := by
      split at hc
      · exact spawnCoinTrail_mem hc
      · exact Or.inl hc
    rcases hmem with h | h | h | h
    · rw [moveCoins_fst] at h
      obtain ⟨c0, hc0, rfl⟩ := List.mem_map.mp h
      exact coinStep_bound hdz (hcoins c0 hc0)
    · intro _; rw [h]; norm_num
    · intro _; rw [h]; norm_num
    · intro _; rw [h]; norm_num

/-- C2 witness: one tick from the fresh game keeps every active entity's
depth inside the amended bounds. -/
theorem claim_C2_witness :
    (0 ≤ (1 / 10 : ℚ) ∧ 0 ≤ (newGame 80 24).elapsed ∧
        (∀ o ∈ (newGame 80 24).obstacles, o.active = true → o.z ≤ 19) ∧
        ∀ c ∈ (newGame 80 24).coinPool, c.active = true → c.z ≤ 22) ∧
      (∀ o ∈ (update (newGame 80 24) (1 / 10) 0 0).obstacles,
          o.active = true → -1 ≤ o.z ∧ o.z ≤ 19) ∧
      ∀ c ∈ (update (newGame 80 24) (1 / 10) 0 0).coinPool,
        c.active = true → -1 ≤ c.z ∧ c.z ≤ 22 :=
  ⟨⟨by with_unfolding_all decide, by with_unfolding_all decide, by with_unfolding_all decide, by with_unfolding_all decide⟩,
    claim_C2 (newGame 80 24) (1 / 10) 0 0 (by with_unfolding_all decide) (by with_unfolding_all decide) (by with_unfolding_all decide) (by with_unfolding_all decide)⟩

/-- C4: along any tick sequence with every `dt ∈ (0, 0.1]` from the fresh
game, `speed` never decreases, stays constant once it reaches 16, and lies
in `[6, 16]` at every state of the trajectory. -/
theorem claim_C4 (w h : ℤ) (l : List (ℚ × ℤ × ℤ))
    (hl : ∀ p ∈ l, 0 < p.1 ∧ p.1 ≤ 1 / 10) :
    List.Chain' (fun a b : Game => a.speed ≤ b.speed ∧ (a.speed = 16 → b.speed = 16))
        (traj (newGame w h) l) ∧
      ∀ s ∈ traj (newGame w h) l, 6 ≤ s.speed ∧ s.speed ≤ 16 := by
  apply traj_good
  · constructor
    · show (6 : ℚ) = speedOf 0
      unfold speedOf
      norm_num
    · exact le_refl 0
  · exact fun p hp => (hl p hp).1

/-- Skip side of the obstacle pass: an obstacle is left undrawn exactly
under the source's guards. -/
theorem drawObstacle_skip (g : Game) (row horizon center : ℤ) (ob : Obstacle) (b : Buf)
    (h : ob.active = false ∨ ob.z < 1 / 2 ∨ 1 - ob.z / 20 < 0 ∨ 1 < 1 - ob.z / 20 ∨
      entTwOf ob.z < 3 ∨ row < entRowOf g horizon ob.z - 2 ∨ entRowOf g horizon ob.z < row) :
    drawObstacle g row horizon center ob b = b := by
  unfold drawObstacle
  split_ifs with h1 h2 h3 h4 <;> try rfl
  exfalso
  rcases h with h | h | h | h | h | h | h
  · exact h1 (Or.inl h)
  · exact h1 (Or.inr h)
  · exact h2 (Or.inl h)
  · exact h2 (Or.inr h)
  · omega
  · omega
  · omega

/-- Draw side of the obstacle pass: under the source's guards the block
glyph `#` lands at every in-range column of the obstacle's band. -/
theorem drawObstacle_draw (g : Game) (row horizon center : ℤ) (ob : Obstacle) (b : Buf) (x : ℤ)
    (hact : ob.active = true) (hz : 1 / 2 ≤ ob.z) (hf0 : 0 ≤ 1 - ob.z / 20)
    (hf1 : 1 - ob.z / 20 ≤ 1) (htw : 3 ≤ entTwOf ob.z)
    (hr1 : entRowOf g horizon ob.z - 2 ≤ row) (hr2 : row ≤ entRowOf g horizon ob.z)
    (hlen : (b.data.length : ℤ) = g.width)
    (hx1 : obsXOf center ob.lane ob.z ≤ x) (hx2 : x < obsXOf center ob.lane ob.z + obsWOf ob.z)
    (hx3 : 0 ≤ x) (hx4 : x < g.width) :
    ((drawObstacle g row horizon center ob b).data)[x.toNat]? = some 35 := by
  unfold drawObstacle
  rw [if_neg (not_or.mpr ⟨by simp [hact], not_lt.mpr hz⟩),
    if_neg (not_or.mpr ⟨not_lt.mpr hf0, not_lt.mpr hf1⟩),
    if_pos ⟨hr1, hr2⟩, if_neg (by omega)]
  exact fillGuard_get 35 hx1 (lt_min hx2 hx4) hx3 (by omega)

/-- Skip side of the coin pass. -/
theorem drawCoin_skip (g : Game) (row horizon center : ℤ) (cn : CoinObj) (b : Buf)
    (h : cn.active = false ∨ cn.z < 1 / 2 ∨ 1 - cn.z / 20 < 0 ∨ 1 < 1 - cn.z / 20 ∨
      entTwOf cn.z < 3 ∨ row ≠ entRowOf g horizon cn.z ∨ coinXOf center cn.lane cn.z < 0 ∨
      g.width ≤ coinXOf center cn.lane cn.z) :
    drawCoin g row horizon center cn b = b := by
  unfold drawCoin
  split_ifs with h1 h2 h3 h4 h5 <;> try rfl
  exfalso
  rcases h with h | h | h | h | h | h | h | h
  · exact h1 (Or.inl h)
  · exact h1 (Or.inr h)
  · exact h2 (Or.inl h)
  · exact h2 (Or.inr h)
  · omega
  · exact h h3
  · have := h5.1; omega
  · have := h5.2; omega

/-- Draw side of the coin pass: the `o` glyph lands at the lane-centered
column of the coin's screen row. -/
theorem drawCoin_draw (g : Game) (row horizon center : ℤ) (cn : CoinObj) (b : Buf)
    (hact : cn.active = true) (hz : 1 / 2 ≤ cn.z) (hf0 : 0 ≤ 1 - cn.z / 20)
    (hf1 : 1 - cn.z / 20 ≤ 1) (htw : 3 ≤ entTwOf cn.z)
    (hrow : row = entRowOf g horizon cn.z) (hlen : (b.data.length : ℤ) = g.width)
    (hcx1 : 0 ≤ coinXOf center cn.lane cn.z) (hcx2 : coinXOf center cn.lane cn.z < g.width) :
    ((drawCoin g row horizon center cn b).data)[(coinXOf center cn.lane cn.z).toNat]? =
      some 111 := by
  unfold drawCoin
  rw [if_neg (not_or.mpr ⟨by simp [hact], not_lt.mpr hz⟩),
    if_neg (not_or.mpr ⟨not_lt.mpr hf0, not_lt.mpr hf1⟩),
    if_pos hrow, if_neg (by omega), if_pos ⟨hcx1, hcx2⟩]
  exact bufWrite_get_self 111 hcx1 (by omega)

theorem hudScoreOverlay_ok {b : Buf} (g : Game) (row : ℤ) (hb : Buf.ok b g.width) :
    Buf.ok (hudScoreOverlay g row b) g.width := by
  unfold hudScoreOverlay
  split
  · exact placeStringBytes_ok _ _ _ hb
  · exact hb

theorem hudCoinsOverlay_ok {b : Buf} (g : Game) (row : ℤ) (hb : Buf.ok b g.width) :
    Buf.ok (hudCoinsOverlay g row b) g.width := by
  unfold hudCoinsOverlay
  split
  · exact placeStringBytes_ok _ _ _ hb
  · exact hb

theorem renderRow_ok (g : Game) (row horizon trackLeft : ℤ) (hw : 0 ≤ g.width) :
    Buf.ok (renderRow g row horizon trackLeft) g.width := by
  unfold renderRow
  apply hudCoinsOverlay_ok
  apply hudScoreOverlay_ok
  have hb0 : Buf.ok ⟨List.replicate g.width.toNat 32, false⟩ g.width := by
    refine ⟨rfl, ?_⟩
    simp only [List.length_replicate]
    omega
  split
  · exact drawSky_ok g row horizon hb0
  · exact drawGround_ok g _ row horizon trackLeft hb0

/-- C4 witness: a concrete two-tick trajectory. -/
theorem claim_C4_witness :
    (∀ p ∈ ([(1 / 10, 0, 0), (1 / 10, 1, 2)] : List (ℚ × ℤ × ℤ)), 0 < p.1 ∧ p.1 ≤ 1 / 10) ∧
      List.Chain' (fun a b : Game => a.speed ≤ b.speed ∧ (a.speed = 16 → b.speed = 16))
          (traj (newGame 80 24) [(1 / 10, 0, 0), (1 / 10, 1, 2)]) ∧
        ∀ s ∈ traj (newGame 80 24) [(1 / 10, 0, 0), (1 / 10, 1, 2)],
          6 ≤ s.speed ∧ s.speed ≤ 16 :=
  ⟨by with_unfolding_all decide,
    (claim_C4 80 24 [(1 / 10, 0, 0), (1 / 10, 1, 2)] (by with_unfolding_all decide)).1,
    (claim_C4 80 24 [(1 / 10, 0, 0), (1 / 10, 1, 2)] (by with_unfolding_all decide)).2⟩

/-- C5: for any viewport of width and height at least 1, no buffer write of
a rendered row ever indexes outside the row buffer — the out-of-bounds
flag threaded through every translated write stays `false`, for every row,
every game state, and every HUD text. -/
theorem claim_C5 (g : Game) (row : ℤ) (hw : 1 ≤ g.width) (hh : 1 ≤ g.height) :
    (renderRow g row (Int.tdiv g.height 3) (Int.tdiv (g.width - 25) 2)).oob = false :=
  (renderRow_ok g row (Int.tdiv g.height 3) (Int.tdiv (g.width - 25) 2) (by omega)).1

/-- C5 witness: a tiny 8x5 viewport renders its rows without any
out-of-bounds write, including the ground row 2. -/
theorem claim_C5_witness :
    (1 ≤ (newGame 8 5).width ∧ 1 ≤ (newGame 8 5).height) ∧
      (renderRow (newGame 8 5) 2 (Int.tdiv (newGame 8 5).height 3)
          (Int.tdiv ((newGame 8 5).width - 25) 2)).oob = false :=
  ⟨⟨by decide, by decide⟩, claim_C5 (newGame 8 5) 2 (by decide) (by decide)⟩

set_option maxRecDepth 4000 in
/-- C7 counterexample: the obstacle of `gC7` sits at depth `0.25`, inside
`[0, farZ]` with projected fraction `0.9875 ∈ [0, 1]`, yet the obstacle
pass leaves the buffer of its projected row 23 untouched (the source skips
every entity with `z < 0.5`), and the fully rendered row 23 contains no
`#` glyph at all. -/
theorem claim_C7_counterexample :
    (0 : ℚ) ≤ 1 / 4 ∧ (1 / 4 : ℚ) ≤ 20 ∧ 0 ≤ 1 - (1 / 4 : ℚ) / 20 ∧ 1 - (1 / 4 : ℚ) / 20 ≤ 1 ∧
      gC7.obstacles = [⟨1, 1 / 4, true⟩] ∧ entRowOf gC7 8 (1 / 4) = 23 ∧
      drawObstacle gC7 23 8 20 ⟨1, 1 / 4, true⟩ bC7 = bC7 ∧
      ((renderRow gC7 23 (Int.tdiv gC7.height 3) (Int.tdiv (gC7.width - 25) 2)).data.all
          fun c => c != 35) = true := by
  with_unfolding_all decide

/-- C7 (amended): the entity passes draw an active obstacle (rows
`[r-2, r]`) and an active coin (row `r`) at
`r = horizon + int(fraction * (height - horizon))`, but only when `z ≥ 0.5`,
the fraction lies in `[0, 1]`, and the perspective-scaled track width is at
least 3 (and, for coins, the glyph column is inside the viewport); an
entity failing any of these guards is skipped even when its depth lies
inside `[0, farDepth]`. -/
theorem claim_C7 (g : Game) (row horizon center x : ℤ) (ob : Obstacle) (cn : CoinObj) (b : Buf) :
    ((ob.active = false ∨ ob.z < 1 / 2 ∨ 1 - ob.z / 20 < 0 ∨ 1 < 1 - ob.z / 20 ∨
        entTwOf ob.z < 3 ∨ row < entRowOf g horizon ob.z - 2 ∨ entRowOf g horizon ob.z < row) →
      drawObstacle g row horizon center ob b = b) ∧
    ((ob.active = true ∧ 1 / 2 ≤ ob.z ∧ 0 ≤ 1 - ob.z / 20 ∧ 1 - ob.z / 20 ≤ 1 ∧
        3 ≤ entTwOf ob.z ∧ entRowOf g horizon ob.z - 2 ≤ row ∧ row ≤ entRowOf g horizon ob.z ∧
        (b.data.length : ℤ) = g.width ∧ obsXOf center ob.lane ob.z ≤ x ∧
        x < obsXOf center ob.lane ob.z + obsWOf ob.z ∧ 0 ≤ x ∧ x < g.width) →
      ((drawObstacle g row horizon center ob b).data)[x.toNat]? = some 35) ∧
    ((cn.active = false ∨ cn.z < 1 / 2 ∨ 1 - cn.z / 20 < 0 ∨ 1 < 1 - cn.z / 20 ∨
        entTwOf cn.z < 3 ∨ row ≠ entRowOf g horizon cn.z ∨ coinXOf center cn.lane cn.z < 0 ∨
        g.width ≤ coinXOf center cn.lane cn.z) →
      drawCoin g row horizon center cn b = b) ∧
    ((cn.active = true ∧ 1 / 2 ≤ cn.z ∧ 0 ≤ 1 - cn.z / 20 ∧ 1 - cn.z / 20 ≤ 1 ∧
        3 ≤ entTwOf cn.z ∧ row = entRowOf g horizon cn.z ∧ (b.data.length : ℤ) = g.width ∧
        0 ≤ coinXOf center cn.lane cn.z ∧ coinXOf center cn.lane cn.z < g.width) →
      ((drawCoin g row horizon center cn b).data)[(coinXOf center cn.lane cn.z).toNat]? =
        some 111) := by
  refine ⟨fun h => drawObstacle_skip g row horizon center ob b h, fun h => ?_,
    fun h => drawCoin_skip g row horizon center cn b h, fun h => ?_⟩
  · exact drawObstacle_draw g row horizon center ob b x h.1 h.2.1 h.2.2.1 h.2.2.2.1
      h.2.2.2.2.1 h.2.2.2.2.2.1 h.2.2.2.2.2.2.1 h.2.2.2.2.2.2.2.1 h.2.2.2.2.2.2.2.2.1
      h.2.2.2.2.2.2.2.2.2.1 h.2.2.2.2.2.2.2.2.2.2.1 h.2.2.2.2.2.2.2.2.2.2.2
  · exact drawCoin_draw g row horizon center cn b h.1 h.2.1 h.2.2.1 h.2.2.2.1 h.2.2.2.2.1
      h.2.2.2.2.2.1 h.2.2.2.2.2.2.1 h.2.2.2.2.2.2.2.1 h.2.2.2.2.2.2.2.2

/-- C7 witness: the obstacle and a coin at depth 10 in the 40x24 viewport
are drawn at their projected positions (row 16, columns 18 and 20). -/
theorem claim_C7_witness :
    ((1 / 2 : ℚ) ≤ 10 ∧ 0 ≤ 1 - (10 : ℚ) / 20 ∧ 1 - (10 : ℚ) / 20 ≤ 1 ∧ 3 ≤ entTwOf 10 ∧
        entRowOf gC7w 8 10 = 16 ∧ (bC7.data.length : ℤ) = gC7w.width ∧
        obsXOf 20 1 10 = 18 ∧ obsWOf 10 = 2 ∧ coinXOf 20 1 10 = 20) ∧
      ((drawObstacle gC7w 16 8 20 ⟨1, 10, true⟩ bC7).data)[(18 : ℤ).toNat]? = some 35 ∧
      ((drawCoin gC7w 16 8 20 ⟨1, 10, true⟩ bC7).data)[(coinXOf 20 1 10).toNat]? = some 111 :=
  ⟨by with_unfolding_all decide,
    (claim_C7 gC7w 16 8 20 18 ⟨1, 10, true⟩ ⟨1, 10, true⟩ bC7).2.1
      (by with_unfolding_all decide),
    (claim_C7 gC7w 16 8 20 18 ⟨1, 10, true⟩ ⟨1, 10, true⟩ bC7).2.2.2
      (by with_unfolding_all decide)⟩

end Surfer
